import Mathlib

/-!
Verification of the SBD frame decoder (`src/sbd_decoder.py`).

Modelling choices for the shallow embedding:
* Python `bytes` buffers become `List Nat` (one element per byte).
* Python `float` arithmetic becomes exact rational arithmetic over `ℚ`.
* A Python `raise` becomes `Except.error`; a normal return becomes `Except.ok`.
* The result dict of `decode_sbd_bytes` becomes the structure `DecodedFrame`,
  with `Option` fields for the sub-dicts that are initialised empty.
-/

/-- Embeds `_bytes_to_bits_msb_first`: each byte expands to its 8 bits,
most-significant bit first, in buffer order. -/
def bytes_to_bits_msb_first : List Nat → List Nat
  | [] => []
  | b :: rest =>
      ((List.range 8).map (fun i => (b >>> (7 - i)) &&& 1)) ++ bytes_to_bits_msb_first rest

/-- Lowercase hex digit of a nibble, as Python `bytes.hex()` produces. -/
def hexDigit (n : Nat) : Char :=
  if n < 10 then Char.ofNat (48 + n) else Char.ofNat (87 + n)

/-- Character list of Python `bytes.hex()`: two lowercase hex digits per byte. -/
def bytesHexCore : List Nat → List Char
  | [] => []
  | x :: rest => hexDigit (x / 16 % 16) :: hexDigit (x % 16) :: bytesHexCore rest

/-- Embeds Python `bytes.hex()` on a byte list. -/
def bytesHex (b : List Nat) : String := String.mk (bytesHexCore b)

/-- Zero-pad a decimal string on the left to width `w`,
as Python format `f"{n:0{w}d}"` does for nonnegative `n`. -/
def padZeros (s : String) (w : Nat) : String :=
  if s.length < w then String.mk (List.replicate (w - s.length) '0') ++ s else s

/-- Round-half-to-even of a rational to an integer, modelling Python `round`
applied to the value scaled by `10 ^ decimals`. -/
def roundHalfEvenQ (x : ℚ) : Int :=
  let f : Int := ⌊x⌋
  let frac : ℚ := x - (f : ℚ)
  if frac < 1 / 2 then f
  else if 1 / 2 < frac then f + 1
  else if f % 2 = 0 then f else f + 1

/-- Embeds `_format_deg`: format degrees with at least `width` digits before
the dot (zero-padded when fewer, shown fully when more), exactly `decimals`
digits after the dot, keeping the minus sign; `none` maps to `none`. -/
def format_deg (value : Option ℚ) (width : Nat) (decimals : Nat) : Option String :=
  match value with
  | none => none
  | some v =>
    let sgn : String := if v < 0 then "-" else ""
    let scaled : Int := roundHalfEvenQ (|v| * (10 : ℚ) ^ decimals)
    let int_part : Int := scaled / (10 : Int) ^ decimals
    let frac_digits : Int := scaled % (10 : Int) ^ decimals
    let int_str : String :=
      if int_part < (10 : Int) ^ width then padZeros (toString int_part.toNat) width
      else toString int_part.toNat
    let frac_str : String := padZeros (toString frac_digits.toNat) decimals
    some (sgn ++ int_str ++ "." ++ frac_str)

/-- The pure value `_ddmm_to_decimal_from_enc` computes once its scale check
has passed: `ddmm = |enc| / scale`, `degrees = int(ddmm // 100)`,
`minutes = ddmm - degrees * 100`, result `sign * (degrees + minutes / 60)`. -/
def ddmmVal (enc : Int) (ddmm_scale : ℚ) : ℚ :=
  let sign : ℚ := if enc < 0 then -1 else 1
  let ddmm : ℚ := (enc.natAbs : ℚ) / ddmm_scale
  let degrees : Int := ⌊ddmm / 100⌋
  let minutes : ℚ := ddmm - (degrees : ℚ) * 100
  sign * ((degrees : ℚ) + minutes / 60)

/-- Embeds `_ddmm_to_decimal_from_enc`: raises `ValueError` (modelled as
`Except.error`) when `ddmm_scale <= 0`, else converts. -/
def ddmm_to_decimal_from_enc (enc : Int) (ddmm_scale : ℚ) : Except String ℚ :=
  if ddmm_scale ≤ 0 then Except.error "ddmm_scale must be positive."
  else Except.ok (ddmmVal enc ddmm_scale)

/-- Big-endian unsigned 16-bit read at index `i`
(`int.from_bytes(data[i:i+2], "big", signed=False)`). -/
def read_u16 (data : List Nat) (i : Nat) : Nat :=
  data.getD i 0 * 256 + data.getD (i + 1) 0

/-- Big-endian signed 32-bit read at index `i`
(`int.from_bytes(data[i:i+4], "big", signed=True)`). -/
def read_i32 (data : List Nat) (i : Nat) : Int :=
  let u : Nat :=
    ((data.getD i 0 * 256 + data.getD (i + 1) 0) * 256 + data.getD (i + 2) 0) * 256
      + data.getD (i + 3) 0
  if u < 2 ^ 31 then (u : Int) else (u : Int) - 2 ^ 32

/-- The `header` sub-dict of the result. -/
structure Header where
  byte0 : Nat
  byte1 : Nat
  version : Nat
  msg_type : Nat
  has_payload : Bool
  needs_ack : Bool
  low_power : Bool
deriving DecidableEq

/-- The `current` sub-dict of the result (current fix). -/
structure CurrentFix where
  lat_enc : Int
  lon_enc : Int
  lat_deg : ℚ
  lon_deg : ℚ
  lat_deg_fmt : Option String
  lon_deg_fmt : Option String
deriving DecidableEq

/-- The `tlv` sub-dict of the result. -/
structure Tlv where
  type : Nat
  length : Nat
  value_bytes_hex : String
  value_bits_msb_first : List Nat
deriving DecidableEq

/-- One entry of `gnss_history`. -/
structure HistEntry where
  lat_enc : Int
  lon_enc : Int
  timestamp_enc : Int
  lat_deg : ℚ
  lon_deg : ℚ
  lat_deg_fmt : Option String
  lon_deg_fmt : Option String
deriving DecidableEq

/-- The `recording_period` sub-dict of the result. -/
structure RecordingPeriod where
  hour : Nat
  minute : Nat
deriving DecidableEq

/-- The result dict of `decode_sbd_bytes`; sub-dicts initialised to `{}`
become `Option` fields initialised to `none`. -/
structure DecodedFrame where
  raw_len : Nat
  header : Option Header
  current : Option CurrentFix
  battery : Option Nat
  iri_timer : Option Nat
  payload_present : Bool
  tlv : Option Tlv
  gnss_history : List HistEntry
  recording_period : Option RecordingPeriod
  unknown_tail : List Nat
  errors : List String
deriving DecidableEq

/-- The freshly initialised result dict at the top of `decode_sbd_bytes`. -/
def emptyFrame (n : Nat) : DecodedFrame :=
  { raw_len := n, header := none, current := none, battery := none, iri_timer := none,
    payload_present := false, tlv := none, gnss_history := [], recording_period := none,
    unknown_tail := [], errors := [] }

/-- Diagnostic emitted when the buffer is shorter than 13 bytes. -/
def tooShortMsg (n : Nat) : String :=
  "Payload too short: " ++ toString n ++ " bytes; expected at least 13."

/-- Diagnostic emitted by `require` when `n` more bytes are not available. -/
def truncMsg (n idx avail : Nat) : String :=
  "Truncated: need " ++ toString n ++ " bytes at idx " ++ toString idx ++ ", only "
    ++ toString avail ++ " available."

/-- Diagnostic emitted when the history loop hits a failed bounds check. -/
def histTruncMsg : String := "Truncated inside GNSS history."

/-- Diagnostic emitted when `has_payload` is clear but bytes remain. -/
def noPayloadMsg (n : Nat) : String :=
  "No payload bit set, but " ++ toString n ++ " extra bytes present."

/-- Diagnostic emitted when fewer than 2 bytes remain after the TLV value. -/
def missingRpMsg : String := "Payload present but missing final recording period (2 bytes)."

/-- Diagnostic emitted when the history region size is not a multiple of 12. -/
def nonMultipleMsg (l : Nat) : String :=
  "Non-multiple-of-12 bytes in history section: " ++ (toString l ++ " leftover bytes.")

/-- Embeds the `for _ in range(history_entries)` loop of `decode_sbd_bytes`:
given the number of remaining iterations and the cursor, returns the entries
collected, the final cursor, and the diagnostics appended, or propagates a
`ValueError` raised by the ddmm conversion. A failed `require(12)` appends
its own diagnostic and then `"Truncated inside GNSS history."` and breaks. -/
def historyLoop (data : List Nat) (ddmm_scale : ℚ) (lat_width lon_width decimals : Nat) :
    Nat → Nat → Except String (List HistEntry × Nat × List String)
  | 0, idx => Except.ok ([], idx, [])
  | k + 1, idx =>
    if data.length < idx + 12 then
      Except.ok ([], idx, [truncMsg 12 idx (data.length - idx), histTruncMsg])
    else
      match ddmm_to_decimal_from_enc (read_i32 data idx) ddmm_scale with
      | Except.error e => Except.error e
      | Except.ok lat_deg =>
        match ddmm_to_decimal_from_enc (read_i32 data (idx + 4)) ddmm_scale with
        | Except.error e => Except.error e
        | Except.ok lon_deg =>
          match historyLoop data ddmm_scale lat_width lon_width decimals k (idx + 12) with
          | Except.error e => Except.error e
          | Except.ok (rest, idx2, errs) =>
            Except.ok
              ({ lat_enc := read_i32 data idx, lon_enc := read_i32 data (idx + 4),
                 timestamp_enc := read_i32 data (idx + 8),
                 lat_deg := lat_deg, lon_deg := lon_deg,
                 lat_deg_fmt := format_deg (some lat_deg) lat_width decimals,
                 lon_deg_fmt := format_deg (some lon_deg) lon_width decimals } :: rest,
               idx2, errs)

/-- Embeds `decode_sbd_bytes`. The mutable cursor `idx` of the source is
threaded as explicit offsets: the header is read at 0, the current fix at 2,
battery at 10, timer at 11, the TLV header at 13, the TLV value at 15, the
history entries from `15 + tlv_len`, and the recording period at the cursor
left by the history loop. Each `require(n)` of the source appears as a
length test that appends a diagnostic and returns the record so far. -/
def decode_sbd_bytes (data : List Nat) (ddmm_scale : ℚ)
    (lat_width lon_width decimals : Nat) : Except String DecodedFrame :=
  let r0 := emptyFrame data.length
  if data.length < 13 then
    Except.ok { r0 with errors := [tooShortMsg data.length] }
  else if data.length < 2 then
    Except.ok { r0 with errors := [truncMsg 2 0 data.length] }
  else
    let byte0 := data.getD 0 0
    let byte1 := data.getD 1 0
    let hp : Bool := (byte1 &&& 1) == 1
    let hdr : Header :=
      { byte0 := byte0, byte1 := byte1,
        version := (byte0 >>> 5) &&& 7, msg_type := byte0 &&& 31,
        has_payload := hp,
        needs_ack := ((byte1 >>> 1) &&& 1) == 1,
        low_power := ((byte1 >>> 2) &&& 1) == 1 }
    let r1 : DecodedFrame := { r0 with header := some hdr, payload_present := hp }
    if data.length < 2 + 8 then
      Except.ok { r1 with errors := r1.errors ++ [truncMsg 8 2 (data.length - 2)] }
    else
      match ddmm_to_decimal_from_enc (read_i32 data 2) ddmm_scale with
      | Except.error e => Except.error e
      | Except.ok lat0_deg =>
        match ddmm_to_decimal_from_enc (read_i32 data 6) ddmm_scale with
        | Except.error e => Except.error e
        | Except.ok lon0_deg =>
          let cur : CurrentFix :=
            { lat_enc := read_i32 data 2, lon_enc := read_i32 data 6,
              lat_deg := lat0_deg, lon_deg := lon0_deg,
              lat_deg_fmt := format_deg (some lat0_deg) lat_width decimals,
              lon_deg_fmt := format_deg (some lon0_deg) lon_width decimals }
          let r2 : DecodedFrame := { r1 with current := some cur }
          if data.length < 10 + 1 then
            Except.ok { r2 with errors := r2.errors ++ [truncMsg 1 10 (data.length - 10)] }
          else
            let r3 : DecodedFrame := { r2 with battery := some (data.getD 10 0) }
            if data.length < 11 + 2 then
              Except.ok { r3 with errors := r3.errors ++ [truncMsg 2 11 (data.length - 11)] }
            else
              let r4 : DecodedFrame := { r3 with iri_timer := some (read_u16 data 11) }
              if hp then
                if data.length < 13 + 2 then
                  Except.ok { r4 with errors := r4.errors ++ [truncMsg 2 13 (data.length - 13)] }
                else
                  let tlv_type := data.getD 13 0
                  let tlv_len := data.getD 14 0
                  if data.length < 15 + tlv_len then
                    Except.ok
                      { r4 with errors := r4.errors ++ [truncMsg tlv_len 15 (data.length - 15)] }
                  else
                    let tlv_value := (data.drop 15).take tlv_len
                    let tlvRec : Tlv :=
                      { type := tlv_type, length := tlv_len,
                        value_bytes_hex := bytesHex tlv_value,
                        value_bits_msb_first := bytes_to_bits_msb_first tlv_value }
                    let r5 : DecodedFrame := { r4 with tlv := some tlvRec }
                    let idx := 15 + tlv_len
                    let rem := data.length - idx
                    if rem < 2 then
                      Except.ok
                        { r5 with errors := r5.errors ++ [missingRpMsg],
                                  unknown_tail := data.drop idx }
                    else
                      let tail_for_history := rem - 2
                      let history_entries := tail_for_history / 12
                      let leftover := tail_for_history % 12
                      match historyLoop data ddmm_scale lat_width lon_width decimals
                          history_entries idx with
                      | Except.error e => Except.error e
                      | Except.ok (hist, idx2, herrs) =>
                        let r6 : DecodedFrame :=
                          { r5 with gnss_history := hist, errors := r5.errors ++ herrs }
                        if data.length < idx2 + 2 then
                          Except.ok
                            { r6 with errors := r6.errors ++ [truncMsg 2 idx2 (data.length - idx2)] }
                        else
                          let rp : RecordingPeriod :=
                            { hour := data.getD idx2 0, minute := data.getD (idx2 + 1) 0 }
                          let r7 : DecodedFrame := { r6 with recording_period := some rp }
                          if leftover ≠ 0 then
                            Except.ok
                              { r7 with
                                unknown_tail :=
                                  (data.drop (data.length - (2 + leftover))).take leftover,
                                errors := r7.errors ++ [nonMultipleMsg leftover] }
                          else
                            Except.ok { r7 with unknown_tail := [] }
              else
                if 13 < data.length then
                  let tail := data.drop 13
                  if 0 < tail.length then
                    Except.ok
                      { r4 with unknown_tail := tail,
                                errors := r4.errors ++ [noPayloadMsg tail.length] }
                  else
                    Except.ok { r4 with unknown_tail := tail }
                else
                  Except.ok r4

/-- Modelled from the spec: the direct-scale conversion mode
(`encode_to_degrees`) of the second format variant, whose script is not under
src/ (only the ddmm-folding variant is); per the spec it returns absent when
the scale is absent and the pure quotient `raw / scale` otherwise. -/
def encode_to_degrees (raw : Int) (scale : Option ℚ) : Option ℚ :=
  scale.map (fun s => (raw : ℚ) / s)

/-- The history entry decoded from the 12 bytes at offset `idx`, with the
conversions written through `ddmmVal` (the value they take once the scale
check has passed). -/
def histEntryAt (data : List Nat) (ddmm_scale : ℚ) (lat_width lon_width decimals idx : Nat) :
    HistEntry :=
  { lat_enc := read_i32 data idx, lon_enc := read_i32 data (idx + 4),
    timestamp_enc := read_i32 data (idx + 8),
    lat_deg := ddmmVal (read_i32 data idx) ddmm_scale,
    lon_deg := ddmmVal (read_i32 data (idx + 4)) ddmm_scale,
    lat_deg_fmt := format_deg (some (ddmmVal (read_i32 data idx) ddmm_scale)) lat_width decimals,
    lon_deg_fmt :=
      format_deg (some (ddmmVal (read_i32 data (idx + 4)) ddmm_scale)) lon_width decimals }

/-- A payload frame whose history region (1 byte) is not a multiple of 12:
header `[0x00, 0x01]` (has_payload set), zeroed current fix, battery and
timer, empty TLV (`type 0, length 0`), then the three bytes
`0xAA 0xBB 0xCC`. Total length 18, so `rem = 3`, `entry_count = 0`,
`leftover = 1`. -/
def c1FailingBuffer : List Nat :=
  [0, 1, 0, 0, 0, 0, 0, 0, 0, 0, 0, 0, 0, 0, 0, 170, 187, 204]

/-! ### Helper lemmas about the conversion -/

/-- With a positive scale the ddmm conversion returns normally. -/
lemma ddmm_ok (enc : Int) (s : ℚ) (hs : 0 < s) :
    ddmm_to_decimal_from_enc enc s = Except.ok (ddmmVal enc s) := by
  simp [ddmm_to_decimal_from_enc, not_le.mpr hs]

/-- With a non-positive scale the ddmm conversion raises. -/
lemma ddmm_err (enc : Int) (s : ℚ) (hs : s ≤ 0) :
    ddmm_to_decimal_from_enc enc s = Except.error "ddmm_scale must be positive." := by
  simp [ddmm_to_decimal_from_enc, hs]

/-- The conversion of an encoded zero is zero. -/
lemma ddmmVal_zero (s : ℚ) : ddmmVal 0 s = 0 := by
  simp [ddmmVal]

/-- The conversion is odd in the encoded value. -/
lemma ddmmVal_neg (e : Int) (s : ℚ) : ddmmVal (-e) s = -ddmmVal e s := by
  rcases lt_trichotomy e 0 with h | h | h
  · simp only [ddmmVal, Int.natAbs_neg]
    rw [if_neg (by omega : ¬(-e < 0)), if_pos h]
    ring
  · subst h
    simp [ddmmVal_zero]
  · simp only [ddmmVal, Int.natAbs_neg]
    rw [if_pos (by omega : -e < 0), if_neg (by omega : ¬(e < 0))]
    ring

/-- A positive encoded value converts to a positive decimal value. -/
lemma ddmmVal_pos (e : Int) (s : ℚ) (hs : 0 < s) (he : 0 < e) : 0 < ddmmVal e s := by
  have hna : (0 : ℚ) < (e.natAbs : ℚ) := by
    have : 0 < e.natAbs := Int.natAbs_pos.mpr (by omega)
    exact_mod_cast this
  simp only [ddmmVal]
  rw [if_neg (by omega : ¬(e < 0))]
  have hdpos : 0 < (e.natAbs : ℚ) / s := div_pos hna hs
  have hfl : ((⌊(e.natAbs : ℚ) / s / 100⌋ : Int) : ℚ) ≤ (e.natAbs : ℚ) / s / 100 :=
    Int.floor_le _
  linarith

/-- A negative encoded value converts to a negative decimal value. -/
lemma ddmmVal_neg_of_neg (e : Int) (s : ℚ) (hs : 0 < s) (he : e < 0) : ddmmVal e s < 0 := by
  have h1 : 0 < ddmmVal (-e) s := ddmmVal_pos (-e) s hs (by omega)
  have h2 := ddmmVal_neg e s
  linarith

/-! ### Helper lemmas about the history loop -/

/-- With a positive scale the history loop never raises. -/
lemma historyLoop_total (data : List Nat) (s : ℚ) (w1 w2 d : Nat) (hs : 0 < s) :
    ∀ k idx, ∃ t, historyLoop data s w1 w2 d k idx = Except.ok t := by
  intro k
  induction k with
  | zero => intro idx; exact ⟨_, rfl⟩
  | succ n ih =>
    intro idx
    by_cases h : data.length < idx + 12
    · exact ⟨_, by rw [historyLoop, if_pos h]⟩
    · obtain ⟨⟨rest, idx2, errs⟩, ht⟩ := ih (idx + 12)
      refine ⟨(histEntryAt data s w1 w2 d idx :: rest, idx2, errs), ?_⟩
      rw [historyLoop, if_neg h, ddmm_ok _ _ hs, ddmm_ok _ _ hs, ht]
      rfl

/-- When the buffer holds `k` complete 12-byte entries at `idx` plus 2 more
bytes, the history loop reads exactly `k` entries, leaves the cursor at
`idx + 12 * k`, and appends no diagnostic. -/
lemma historyLoop_exact (data : List Nat) (s : ℚ) (w1 w2 d : Nat) (hs : 0 < s) :
    ∀ k idx, idx + 12 * k + 2 ≤ data.length →
      ∃ es, historyLoop data s w1 w2 d k idx = Except.ok (es, idx + 12 * k, []) ∧
        es.length = k := by
  intro k
  induction k with
  | zero => intro idx h; exact ⟨[], by simp [historyLoop], rfl⟩
  | succ n ih =>
    intro idx h
    have hb : ¬ data.length < idx + 12 := by omega
    obtain ⟨es, hes, hlen⟩ := ih (idx + 12) (by omega)
    have harith : idx + 12 + 12 * n = idx + 12 * (n + 1) := by ring
    refine ⟨histEntryAt data s w1 w2 d idx :: es, ?_, by simp [hlen]⟩
    rw [historyLoop, if_neg hb, ddmm_ok _ _ hs, ddmm_ok _ _ hs, hes, ← harith]
    rfl

/-! ### C3, C5, C8, C9 -/

/-- C3: both conversion modes exist as a configuration choice — the ddmm mode
is `ddmm_to_decimal_from_enc`, the direct-scale mode is `encode_to_degrees` —
and in direct-scale mode the conversion is the pure quotient `raw / scale`,
so multiplying back by any positive scale returns the encoded value exactly
(the rational model carries no floating rounding error). -/
theorem encode_to_degrees_round_trip (e : Int) (s : ℚ) (hs : 0 < s) :
    encode_to_degrees e (some s) = some ((e : ℚ) / s) ∧ (e : ℚ) / s * s = (e : ℚ) := by
  exact ⟨rfl, div_mul_cancel₀ _ (ne_of_gt hs)⟩

/-- C3 witness: the round trip at `e = 7`, `s = 2`. -/
theorem encode_to_degrees_round_trip_witness :
    (0 : ℚ) < 2 ∧
      (encode_to_degrees 7 (some 2) = some ((7 : ℚ) / 2) ∧ (7 : ℚ) / 2 * 2 = (7 : ℚ)) :=
  ⟨by norm_num, encode_to_degrees_round_trip 7 2 (by norm_num)⟩

/-- Round-half-even of an integer-valued rational is that integer. -/
lemma roundHalfEvenQ_intCast (n : Int) : roundHalfEvenQ (n : ℚ) = n := by
  simp only [roundHalfEvenQ, Int.floor_intCast, sub_self]
  norm_num

/-- Evaluation of the formatter on a nonnegative value whose scaled absolute
value is the integer `n`: no sign is prefixed and the digits come from `n`. -/
lemma format_deg_int_of_nonneg (v : ℚ) (w d : Nat) (n : Int) (hv : ¬v < 0)
    (hn : |v| * (10 : ℚ) ^ d = (n : ℚ)) :
    format_deg (some v) w d =
      some ("" ++
        (if n / (10 : Int) ^ d < (10 : Int) ^ w then
            padZeros (toString (n / (10 : Int) ^ d).toNat) w
          else toString (n / (10 : Int) ^ d).toNat) ++ "." ++
        padZeros (toString (n % (10 : Int) ^ d).toNat) d) := by
  simp only [format_deg]
  rw [hn, roundHalfEvenQ_intCast, if_neg hv]

/-- Evaluation of the formatter on a negative value whose scaled absolute
value is the integer `n`: a minus sign is prefixed, digits come from `n`. -/
lemma format_deg_int_of_neg (v : ℚ) (w d : Nat) (n : Int) (hv : v < 0)
    (hn : |v| * (10 : ℚ) ^ d = (n : ℚ)) :
    format_deg (some v) w d =
      some ("-" ++
        (if n / (10 : Int) ^ d < (10 : Int) ^ w then
            padZeros (toString (n / (10 : Int) ^ d).toNat) w
          else toString (n / (10 : Int) ^ d).toNat) ++ "." ++
        padZeros (toString (n % (10 : Int) ^ d).toNat) d) := by
  simp only [format_deg]
  rw [hn, roundHalfEvenQ_intCast, if_pos hv]

/-- C5: the pinned formatter examples, and absent input yields absent output. -/
theorem format_deg_pinned_examples :
    format_deg (some (15 / 2 : ℚ)) 2 6 = some "07.500000" ∧
    format_deg (some (-13 / 4 : ℚ)) 2 6 = some "-03.250000" ∧
    format_deg (some (617 / 5 : ℚ)) 2 6 = some "123.400000" ∧
    format_deg (some (51231451 / 1000000 : ℚ)) 2 6 = some "51.231451" ∧
    format_deg none 2 6 = none := by
  have e1 := format_deg_int_of_nonneg (15 / 2 : ℚ) 2 6 7500000 (by norm_num)
    (by rw [abs_of_nonneg (by norm_num : (0 : ℚ) ≤ 15 / 2)]; norm_num)
  have e2 := format_deg_int_of_neg (-13 / 4 : ℚ) 2 6 3250000 (by norm_num)
    (by rw [abs_of_neg (by norm_num : (-13 / 4 : ℚ) < 0)]; norm_num)
  have e3 := format_deg_int_of_nonneg (617 / 5 : ℚ) 2 6 123400000 (by norm_num)
    (by rw [abs_of_nonneg (by norm_num : (0 : ℚ) ≤ 617 / 5)]; norm_num)
  have e4 := format_deg_int_of_nonneg (51231451 / 1000000 : ℚ) 2 6 51231451 (by norm_num)
    (by rw [abs_of_nonneg (by norm_num : (0 : ℚ) ≤ 51231451 / 1000000)]; norm_num)
  refine ⟨?_, ?_, ?_, ?_, rfl⟩
  · rw [e1]; decide
  · rw [e2]; decide
  · rw [e3]; decide
  · rw [e4]; decide

/-- C8: the ddmm conversion is computed on the absolute value with the sign
applied afterwards: with a positive scale, converting `-e` yields exactly the
negation of converting `e`, and a negative encoded value always yields a
negative decimal value. -/
theorem ddmm_sign_preservation (e : Int) (s : ℚ) (hs : 0 < s) :
    ddmm_to_decimal_from_enc (-e) s = Except.ok (-ddmmVal e s) ∧
    ddmm_to_decimal_from_enc e s = Except.ok (ddmmVal e s) ∧
    (e < 0 → ddmmVal e s < 0) := by
  refine ⟨?_, ddmm_ok _ _ hs, fun he => ddmmVal_neg_of_neg e s hs he⟩
  rw [ddmm_ok _ _ hs, ddmmVal_neg]

/-- C8 witness: sign preservation at `e = 512312345`, `s = 10000`. -/
theorem ddmm_sign_preservation_witness :
    (0 : ℚ) < 10000 ∧
      (ddmm_to_decimal_from_enc (-(512312345 : Int)) 10000 =
          Except.ok (-ddmmVal 512312345 10000) ∧
        ddmm_to_decimal_from_enc 512312345 10000 = Except.ok (ddmmVal 512312345 10000) ∧
        ((512312345 : Int) < 0 → ddmmVal 512312345 10000 < 0)) :=
  ⟨by norm_num, ddmm_sign_preservation 512312345 10000 (by norm_num)⟩

/-- C9: decoding is deterministic and stateless — the embedded decoder is a
pure function of the buffer and configuration, so two calls on the same
arguments produce identical frames. -/
theorem decode_deterministic (data : List Nat) (s : ℚ) (w1 w2 d : Nat) :
    decode_sbd_bytes data s w1 w2 d = decode_sbd_bytes data s w1 w2 d := rfl

/-! ### C2, C6 -/

/-- C2 counterexample: with the non-positive scale `-1` the decoder does not
raise on the empty buffer — it returns the too-short record normally, so an
invalid configuration is not reported before decoding begins. -/
theorem decode_nonpos_scale_short_buffer_returns :
    decode_sbd_bytes [] (-1) 2 2 6 =
      Except.ok { emptyFrame 0 with errors := [tooShortMsg 0] } := rfl

/-- C2 amended: with a non-positive scale the decoder raises only when it
reaches the first coordinate conversion, which happens for every buffer of at
least 13 bytes (after the header has already been decoded); shorter buffers
return the too-short record without raising. -/
theorem decode_nonpos_scale_raises_at_first_conversion (data : List Nat) (s : ℚ)
    (w1 w2 d : Nat) (hs : s ≤ 0) (hlen : 13 ≤ data.length) :
    decode_sbd_bytes data s w1 w2 d = Except.error "ddmm_scale must be positive." := by
  simp only [decode_sbd_bytes]
  rw [if_neg (by omega : ¬data.length < 13), if_neg (by omega : ¬data.length < 2),
    if_neg (by omega : ¬data.length < 2 + 8), ddmm_err _ _ hs]

/-- C2 amended witness: scale `0` on a 13-byte buffer raises. -/
theorem decode_nonpos_scale_raises_witness :
    (0 : ℚ) ≤ 0 ∧ 13 ≤ (List.replicate 13 0).length ∧
      decode_sbd_bytes (List.replicate 13 0) 0 2 2 6 =
        Except.error "ddmm_scale must be positive." :=
  ⟨le_refl 0, by decide,
    decode_nonpos_scale_raises_at_first_conversion (List.replicate 13 0) 0 2 2 6
      (le_refl 0) (by decide)⟩

/-- C6: any buffer shorter than 13 bytes decodes to the otherwise-empty
record — header, current fix, battery, timer, tlv, history and recording
period all unpopulated — with exactly the one too-short diagnostic. -/
theorem decode_too_short (data : List Nat) (s : ℚ) (w1 w2 d : Nat)
    (h : data.length < 13) :
    decode_sbd_bytes data s w1 w2 d =
      Except.ok { emptyFrame data.length with errors := [tooShortMsg data.length] } := by
  simp only [decode_sbd_bytes]
  rw [if_pos h]

/-- C6 witness: a buffer of exactly 12 bytes. -/
theorem decode_too_short_witness :
    (List.replicate 12 0).length < 13 ∧
      decode_sbd_bytes (List.replicate 12 0) 1 2 2 6 =
        Except.ok { emptyFrame (List.replicate 12 0).length with
                    errors := [tooShortMsg (List.replicate 12 0).length] } :=
  ⟨by decide, decode_too_short (List.replicate 12 0) 1 2 2 6 (by decide)⟩

/-! ### C4 -/

/-- C4: with a positive scale one decode call never raises, whatever the
input buffer: it always returns a decoded record (malformed input surfaces
only through the record's errors list). -/
theorem decode_never_raises (data : List Nat) (s : ℚ) (w1 w2 d : Nat) (hs : 0 < s) :
    ∃ r, decode_sbd_bytes data s w1 w2 d = Except.ok r := by
  have hsimp : ∀ e, ddmm_to_decimal_from_enc e s = Except.ok (ddmmVal e s) :=
    fun e => ddmm_ok e s hs
  simp only [decode_sbd_bytes]
  by_cases h13 : data.length < 13
  · rw [if_pos h13]; exact ⟨_, rfl⟩
  rw [if_neg h13, if_neg (by omega : ¬data.length < 2), if_neg (by omega : ¬data.length < 2 + 8)]
  simp only [hsimp]
  rw [if_neg (by omega : ¬data.length < 10 + 1), if_neg (by omega : ¬data.length < 11 + 2)]
  by_cases hb : ((data.getD 1 0 &&& 1) == 1) = true
  · rw [if_pos hb]
    by_cases h15 : data.length < 13 + 2
    · rw [if_pos h15]; exact ⟨_, rfl⟩
    rw [if_neg h15]
    by_cases htlv : data.length < 15 + data.getD 14 0
    · rw [if_pos htlv]; exact ⟨_, rfl⟩
    rw [if_neg htlv]
    by_cases hrem : data.length - (15 + data.getD 14 0) < 2
    · rw [if_pos hrem]; exact ⟨_, rfl⟩
    rw [if_neg hrem]
    obtain ⟨⟨hist, idx2, herrs⟩, ht⟩ := historyLoop_total data s w1 w2 d hs
      ((data.length - (15 + data.getD 14 0) - 2) / 12) (15 + data.getD 14 0)
    simp only [ht]
    by_cases hrp : data.length < idx2 + 2
    · rw [if_pos hrp]; exact ⟨_, rfl⟩
    rw [if_neg hrp]
    by_cases hl : (data.length - (15 + data.getD 14 0) - 2) % 12 ≠ 0
    · rw [if_pos hl]; exact ⟨_, rfl⟩
    · rw [if_neg hl]; exact ⟨_, rfl⟩
  · rw [if_neg hb]
    by_cases hx : 13 < data.length
    · rw [if_pos hx]
      by_cases htl : 0 < (data.drop 13).length
      · rw [if_pos htl]; exact ⟨_, rfl⟩
      · rw [if_neg htl]; exact ⟨_, rfl⟩
    · rw [if_neg hx]; exact ⟨_, rfl⟩

/-- C4 witness: a positive scale on a short arbitrary buffer returns a record. -/
theorem decode_never_raises_witness :
    (0 : ℚ) < 1 ∧ ∃ r, decode_sbd_bytes [1, 2, 3] 1 2 2 6 = Except.ok r :=
  ⟨by norm_num, decode_never_raises [1, 2, 3] 1 2 2 6 (by norm_num)⟩

/-! ### C7 -/

/-- C7: when `has_payload` is clear, everything after the 13-byte fixed
section becomes `unknown_tail`, tlv, history and recording period stay
unpopulated, and exactly one diagnostic is appended iff the tail is
non-empty. -/
theorem decode_no_payload_tail (data : List Nat) (s : ℚ) (w1 w2 d : Nat)
    (hs : 0 < s) (hlen : 13 ≤ data.length) (hp : data.getD 1 0 % 2 = 0) :
    ∃ r, decode_sbd_bytes data s w1 w2 d = Except.ok r ∧
      r.unknown_tail = data.drop 13 ∧ r.tlv = none ∧ r.gnss_history = [] ∧
      r.recording_period = none ∧
      r.errors = (if data.length = 13 then [] else [noPayloadMsg (data.length - 13)]) := by
  have hsimp : ∀ e, ddmm_to_decimal_from_enc e s = Except.ok (ddmmVal e s) :=
    fun e => ddmm_ok e s hs
  have hb : ¬(((data.getD 1 0 &&& 1) == 1) = true) := by
    rw [Nat.and_one_is_mod, hp]
    decide
  simp only [decode_sbd_bytes]
  rw [if_neg (by omega : ¬data.length < 13), if_neg (by omega : ¬data.length < 2),
    if_neg (by omega : ¬data.length < 2 + 8)]
  simp only [hsimp]
  rw [if_neg (by omega : ¬data.length < 10 + 1), if_neg (by omega : ¬data.length < 11 + 2),
    if_neg hb]
  by_cases hx : 13 < data.length
  · rw [if_pos hx, if_pos (show 0 < (data.drop 13).length by rw [List.length_drop]; omega)]
    refine ⟨_, rfl, rfl, rfl, rfl, rfl, ?_⟩
    rw [if_neg (by omega : ¬data.length = 13), List.length_drop]
    rfl
  · rw [if_neg hx]
    refine ⟨_, rfl, ?_, rfl, rfl, rfl, ?_⟩
    · rw [List.drop_eq_nil_of_le (by omega)]
      rfl
    · rw [if_pos (by omega : data.length = 13)]
      rfl

/-- C7 witness: a no-payload frame with 3 trailing bytes. -/
theorem decode_no_payload_tail_witness :
    (0 : ℚ) < 1 ∧ 13 ≤ ([0, 0, 0, 0, 0, 0, 0, 0, 0, 0, 0, 0, 0, 9, 9, 9] : List Nat).length ∧
      ([0, 0, 0, 0, 0, 0, 0, 0, 0, 0, 0, 0, 0, 9, 9, 9] : List Nat).getD 1 0 % 2 = 0 ∧
      ∃ r, decode_sbd_bytes [0, 0, 0, 0, 0, 0, 0, 0, 0, 0, 0, 0, 0, 9, 9, 9] 1 2 2 6 =
          Except.ok r ∧
        r.unknown_tail = ([0, 0, 0, 0, 0, 0, 0, 0, 0, 0, 0, 0, 0, 9, 9, 9] : List Nat).drop 13 ∧
        r.tlv = none ∧ r.gnss_history = [] ∧ r.recording_period = none ∧
        r.errors =
          (if ([0, 0, 0, 0, 0, 0, 0, 0, 0, 0, 0, 0, 0, 9, 9, 9] : List Nat).length = 13 then []
           else [noPayloadMsg (([0, 0, 0, 0, 0, 0, 0, 0, 0, 0, 0, 0, 0, 9, 9, 9] : List Nat).length - 13)]) :=
  ⟨by norm_num, by decide, by decide,
    decode_no_payload_tail [0, 0, 0, 0, 0, 0, 0, 0, 0, 0, 0, 0, 0, 9, 9, 9] 1 2 2 6
      (by norm_num) (by decide) (by decide)⟩

/-! ### C10 -/

/-- The non-multiple diagnostic is never the history-truncation diagnostic. -/
lemma nonMultiple_ne_hist (l : Nat) : nonMultipleMsg l ≠ histTruncMsg := by
  intro h
  have h2 := congrArg String.length h
  rw [nonMultipleMsg, histTruncMsg, String.length_append, String.length_append] at h2
  have ha : ("Non-multiple-of-12 bytes in history section: " : String).length = 45 := rfl
  have hb : (" leftover bytes." : String).length = 16 := rfl
  have hc : ("Truncated inside GNSS history." : String).length = 30 := rfl
  omega

/-- C10: in the payload branch, once the TLV value fits and at least 2 bytes
remain, every bounds check in the history loop and before the recording
period succeeds: exactly `floor((remaining - 2) / 12)` entries are decoded,
the recording period is populated (so the decode does not return early), and
the history-truncation diagnostic is never emitted. -/
theorem decode_payload_history_bounds_ok (data : List Nat) (s : ℚ) (w1 w2 d : Nat)
    (hs : 0 < s) (hp : data.getD 1 0 % 2 = 1)
    (hlen : 15 + data.getD 14 0 + 2 ≤ data.length) :
    ∃ r, decode_sbd_bytes data s w1 w2 d = Except.ok r ∧
      r.gnss_history.length = (data.length - (15 + data.getD 14 0) - 2) / 12 ∧
      r.recording_period.isSome = true ∧
      histTruncMsg ∉ r.errors := by
  have hsimp : ∀ e, ddmm_to_decimal_from_enc e s = Except.ok (ddmmVal e s) :=
    fun e => ddmm_ok e s hs
  have hb : ((data.getD 1 0 &&& 1) == 1) = true := by
    rw [Nat.and_one_is_mod, hp]
    rfl
  have hq := Nat.div_mul_le_self (data.length - (15 + data.getD 14 0) - 2) 12
  obtain ⟨es, hes, heslen⟩ := historyLoop_exact data s w1 w2 d hs
    ((data.length - (15 + data.getD 14 0) - 2) / 12) (15 + data.getD 14 0) (by omega)
  simp only [decode_sbd_bytes]
  rw [if_neg (by omega : ¬data.length < 13), if_neg (by omega : ¬data.length < 2),
    if_neg (by omega : ¬data.length < 2 + 8)]
  simp only [hsimp]
  rw [if_neg (by omega : ¬data.length < 10 + 1), if_neg (by omega : ¬data.length < 11 + 2),
    if_pos hb, if_neg (by omega : ¬data.length < 13 + 2),
    if_neg (by omega : ¬data.length < 15 + data.getD 14 0),
    if_neg (by omega : ¬data.length - (15 + data.getD 14 0) < 2)]
  simp only [hes]
  rw [if_neg (show ¬data.length <
      15 + data.getD 14 0 + 12 * ((data.length - (15 + data.getD 14 0) - 2) / 12) + 2
    by omega)]
  by_cases hl : (data.length - (15 + data.getD 14 0) - 2) % 12 ≠ 0
  · rw [if_pos hl]
    refine ⟨_, rfl, heslen, rfl, ?_⟩
    show histTruncMsg ∉
      (emptyFrame data.length).errors ++ [] ++
        [nonMultipleMsg ((data.length - (15 + data.getD 14 0) - 2) % 12)]
    simp only [emptyFrame, List.nil_append, List.mem_singleton]
    exact fun hh => nonMultiple_ne_hist _ hh.symm
  · rw [if_neg hl]
    refine ⟨_, rfl, heslen, rfl, ?_⟩
    show histTruncMsg ∉ (emptyFrame data.length).errors ++ []
    simp [emptyFrame]

/-- C10 witness: payload frame with empty TLV, no history, recording period
as the final 2 bytes. -/
theorem decode_payload_history_bounds_ok_witness :
    (0 : ℚ) < 1 ∧
      ([0, 1, 0, 0, 0, 0, 0, 0, 0, 0, 0, 0, 0, 0, 0, 7, 30] : List Nat).getD 1 0 % 2 = 1 ∧
      15 + ([0, 1, 0, 0, 0, 0, 0, 0, 0, 0, 0, 0, 0, 0, 0, 7, 30] : List Nat).getD 14 0 + 2 ≤
        ([0, 1, 0, 0, 0, 0, 0, 0, 0, 0, 0, 0, 0, 0, 0, 7, 30] : List Nat).length ∧
      ∃ r, decode_sbd_bytes [0, 1, 0, 0, 0, 0, 0, 0, 0, 0, 0, 0, 0, 0, 0, 7, 30] 1 2 2 6 =
          Except.ok r ∧
        r.gnss_history.length =
          (([0, 1, 0, 0, 0, 0, 0, 0, 0, 0, 0, 0, 0, 0, 0, 7, 30] : List Nat).length -
            (15 + ([0, 1, 0, 0, 0, 0, 0, 0, 0, 0, 0, 0, 0, 0, 0, 7, 30] : List Nat).getD 14 0) - 2) / 12 ∧
        r.recording_period.isSome = true ∧
        histTruncMsg ∉ r.errors :=
  ⟨by norm_num, by decide, by decide,
    decode_payload_history_bounds_ok [0, 1, 0, 0, 0, 0, 0, 0, 0, 0, 0, 0, 0, 0, 0, 7, 30]
      1 2 2 6 (by norm_num) (by decide) (by decide)⟩

/-! ### C1 -/

/-- C1: code behaviour at a payload frame whose history region size is not a
multiple of the entry size (`c1FailingBuffer`, leftover 1): the decoder reads
the recording period at the cursor left after the history entries —
`hour = data[15] = 170`, `minute = data[16] = 187` — not from the final two
bytes `(187, 204)` the claim requires, while `unknown_tail` is still taken
from just before the final two bytes, so byte `170` is reported both as the
hour and as the unknown tail, and the last byte `204` is never surfaced. -/
theorem decode_recording_period_before_leftover :
    (decode_sbd_bytes c1FailingBuffer 1 2 2 6).toOption.map
        (fun r => (r.recording_period, r.unknown_tail, r.gnss_history.length, r.errors)) =
      some (some { hour := 170, minute := 187 }, [170], 0, [nonMultipleMsg 1]) := by
  decide
